import Mathlib

/-!
Verification of the worsehttp HTTP/1.x server engine (repository
FauxFaux/horsehttp) against its natural-language specification.

The development shallowly embeds the connection-handling core:

* `src/src/req.rs` — `read_headers`, the buffered header-block reader;
* `src/src/client.rs` — the `Client` per-connection state (parsed request,
  response state, body reads, response writes, `body_reader`);
* `src/src/lib.rs` — the `HttpRequestHandler` default dispatch, `serve`,
  and the post-handler epilogue of `handle`;
* `src/src/semaphore.rs` — the counting `Semaphore`.

Bytes are modelled as `Nat` (10 is LF, 13 is CR).  Fallible operations
return `Option` or `Except`; a Rust panic is modelled as `none` (for reads)
or a dedicated constructor (for the header loop).  Machine integers that
matter (the `usize` parse of `Content-Length`) carry an explicit `2 ^ 64`
overflow bound.
-/

/-- Bytes of a string literal, one `Nat` per character.  All the literals
involved are ASCII, so one character is one wire byte. -/
def strBytes (s : String) : List Nat :=
  s.data.map Char.toNat

/-- Boolean suffix test on byte lists, modelling `ret.ends_with(...)` from
`src/src/req.rs`. -/
def listEndsWith (l suf : List Nat) : Bool :=
  List.isSuffixOf suf l

/-- Outcome of `read_headers` (`src/src/req.rs`).  The Rust function can
return normally, fail its own `assert!(ret.ends_with(b"\n"))`, or loop
forever re-calling `read_until` at end of input; the three cases are kept
apart. -/
inductive ReadResult
  | ok (header body : List Nat) (lines : Nat)
  | panicked
  | diverged
deriving DecidableEq, Repr

/-- Model of `BufRead::read_until(b'\n', &mut ret)` on an in-memory source:
returns the bytes consumed (up to and including the first LF, or everything
when no LF remains) and the bytes left. -/
def readUntilLF : List Nat → List Nat × List Nat
  | [] => ([], [])
  | b :: rest =>
      if b = 10 then ([10], rest)
      else
        let p := readUntilLF rest
        (b :: p.1, p.2)

/-- Loop of `read_headers` (`src/src/req.rs` lines 14-21).  `fuel` only
bounds the recursion: while bytes remain every iteration consumes at least
one, and once the source is empty the loop state repeats verbatim, so with
any fuel the exhausted-fuel answer `diverged` is returned exactly when the
Rust loop runs forever (re-reading zero bytes at end of input). -/
def readHeadersLoop : Nat → List Nat → Nat → List Nat → ReadResult
  | 0, _, _, _ => ReadResult.diverged
  | fuel + 1, ret, lines, rem =>
      let p := readUntilLF rem
      let ret2 := ret ++ p.1
      if listEndsWith ret2 [10] = false then ReadResult.panicked
      else if listEndsWith ret2 [10, 13, 10] || listEndsWith ret2 [10, 10] then
        ReadResult.ok ret2 p.2 (lines + 1)
      else readHeadersLoop fuel ret2 (lines + 1) p.2

/-- Model of `read_headers` (`src/src/req.rs`): accumulate LF-terminated
lines until the accumulated block ends in `\n\r\n` or `\n\n`; on success
return the block, the bytes the buffered reader had already pulled past the
terminator (`from.buffer().to_vec()`), and the line count. -/
def readHeaders (src : List Nat) : ReadResult :=
  readHeadersLoop (src.length + 1) [] 0 src

/-- Parsed request (`Requested` in `src/src/client.rs`): method, path, HTTP
minor version, header pairs in order, and the pre-read body bytes. -/
structure Requested where
  method : String
  path : String
  version : Nat
  headers : List (String × String)
  bodyStart : List Nat
deriving DecidableEq, Repr

/-- Response state (`Response` in `src/src/client.rs`). -/
structure Response where
  code : Nat
  message : String
  sent : Bool
deriving DecidableEq, Repr

/-- The `Default` impl for `Response`: `200 Ok`, not yet sent. -/
def Response.default : Response :=
  { code := 200, message := "Ok", sent := false }

/-- Per-connection state (`Client` in `src/src/client.rs`).  `stream` holds
the bytes the connection still offers beyond the pre-read ones. -/
structure Client where
  requested : Requested
  addr : String
  stream : List Nat
  response : Response
deriving DecidableEq, Repr

/-- Constructor `Client::new` / the construction in `handle`
(`src/src/lib.rs` lines 198-203): a fresh client starts from
`Response::default()`. -/
def Client.new (requested : Requested) (addr : String) (stream : List Nat) : Client :=
  { requested := requested, addr := addr, stream := stream, response := Response.default }

/-- Accessor `Client::response_sent` (`src/src/client.rs` lines 96-98). -/
def responseSent (c : Client) : Bool :=
  c.response.sent

/-- Model of `char::is_ascii_control`: the C0 range and DEL. -/
def isAsciiControl (ch : Char) : Bool :=
  ch.toNat ≤ 31 || ch.toNat == 127

/-- Model of `message.contains(|c: char| c.is_ascii_control())`. -/
def containsControlChar (s : String) : Bool :=
  s.data.any isAsciiControl

/-- ASCII lower-casing of one character, as `eq_ignore_ascii_case` folds. -/
def asciiLower (ch : Char) : Char :=
  if 65 ≤ ch.toNat ∧ ch.toNat ≤ 90 then Char.ofNat (ch.toNat + 32) else ch

/-- Model of `str::eq_ignore_ascii_case`. -/
def eqIgnoreAsciiCase (a b : String) : Bool :=
  a.data.map asciiLower == b.data.map asciiLower

/-- Model of `Client::request_header` (`src/src/client.rs` lines 109-122):
all values whose name matches case-insensitively, joined by a comma and a
space, or `none` when no header matches. -/
def requestHeader (c : Client) (name : String) : Option String :=
  let vs := (c.requested.headers.filter fun p => eqIgnoreAsciiCase p.1 name).map fun p => p.2
  if vs.isEmpty then none else some (String.intercalate ", " vs)

/-- Model of `str::parse::<usize>`: an optional leading plus sign, then at
least one decimal digit, rejecting any value past `usize::MAX` (64-bit). -/
def parseUsize (s : String) : Option Nat :=
  let digits := match s.data with
    | '+' :: rest => rest
    | cs => cs
  if digits.isEmpty then none
  else if digits.all Char.isDigit then
    let v := digits.foldl (fun acc ch => acc * 10 + (ch.toNat - 48)) 0
    if v < 2 ^ 64 then some v else none
  else none

/-- Failure cases of `Client::body_reader`: the `Content-Length` value does
not parse (`content_length()?`, a `ParseIntError`), or the header is absent
(`format_err!` in `body_reader`, `src/src/client.rs` lines 130-137). -/
inductive BodyError
  | parseContentLength
  | noContentLength
deriving DecidableEq, Repr

/-- Model of `Client::content_length` (`src/src/client.rs` lines 124-128):
`request_header("Content-Length").map(|len| len.parse()).invert()`. -/
def contentLength (c : Client) : Except BodyError (Option Nat) :=
  match requestHeader c "Content-Length" with
  | none => Except.ok none
  | some v =>
      match parseUsize v with
      | none => Except.error BodyError.parseContentLength
      | some n => Except.ok (some n)

/-- The length with which `Client::body_reader` builds its `Take` wrapper,
or the error it returns (`src/src/client.rs` lines 130-137). -/
def bodyReaderLen (c : Client) : Except BodyError Nat :=
  match contentLength c with
  | Except.error e => Except.error e
  | Except.ok none => Except.error BodyError.noContentLength
  | Except.ok (some n) => Except.ok n

/-- Model of `impl Read for Client` (`src/src/client.rs` lines 246-261) on a
buffer of length `n`.  A zero-length buffer returns immediately; with no
pending pre-read bytes the live stream is read; otherwise the code computes
`to_reply = min(n, pending)` but then calls
`buf.copy_from_slice(&body_start[..to_reply])` on the whole buffer, which
panics (modelled as `none`) whenever `n` exceeds the pending length. -/
def clientRead (c : Client) (n : Nat) : Option (List Nat × Client) :=
  if n = 0 then some ([], c)
  else if c.requested.bodyStart.isEmpty then
    some (c.stream.take n, { c with stream := c.stream.drop n })
  else if c.requested.bodyStart.length < n then none
  else
    let toReply := min n c.requested.bodyStart.length
    some (c.requested.bodyStart.take toReply,
      { c with requested := { c.requested with bodyStart := c.requested.bodyStart.drop toReply } })

/-- Byte-at-a-time drain through `io::Take` (`BodyReader` wraps
`self.take(u64(len))`, `src/src/client.rs` lines 134-136 and 236-244): each
read is capped by the remaining limit, and the drain stops at the limit or
at the first read that yields no bytes. -/
def drainTake : Nat → Client → List Nat
  | 0, _ => []
  | limit + 1, c =>
      match clientRead c 1 with
      | some (x :: _, c2) => x :: drainTake limit c2
      | _ => []

/-- One piece of output the engine writes on a connection: the single
status-line plus `Connection: close` terminator flush of `write_response`,
body bytes from the `Write` impl, or raw bytes from
`write_all_overriding_headers`. -/
inductive Chunk
  | flushResponse (version code : Nat) (message : String)
  | body (bytes : List Nat)
  | raw (bytes : List Nat)
deriving DecidableEq, Repr

/-- Whether a chunk is the status-line + terminator flush. -/
def Chunk.isFlush : Chunk → Bool
  | Chunk.flushResponse _ _ _ => true
  | _ => false

/-- Wire bytes of the flush: status line `HTTP/1.<version> <code> <message>`
then exactly `Connection: close` and a blank line
(`src/src/client.rs` lines 166-178). -/
def flushBytes (version code : Nat) (message : String) : List Nat :=
  strBytes ("HTTP/1." ++ toString version ++ " " ++ toString code ++ " "
    ++ message ++ "\r\n" ++ "Connection: close\r\n\r\n")

/-- Errors `ensure!` raises in `Client` (state errors, `src/src/client.rs`
lines 65-82). -/
inductive ClientError
  | responseAlreadySent
  | controlCharInMessage
deriving DecidableEq, Repr

/-- Operations application code can perform on a `Client`
(`set_response`, `send_response`, the `Write` impl, and the raw escape
hatch `write_all_overriding_headers`). -/
inductive Op
  | setResponse (code : Nat) (message : String)
  | sendResponse
  | write (bytes : List Nat)
  | writeAll (bytes : List Nat)
  | writeOverriding (bytes : List Nat)
deriving DecidableEq, Repr

/-- Model of `Client::write_response` (`src/src/client.rs` lines 166-178):
set `sent`, then emit the status line and the terminator. -/
def writeResponse (c : Client) : Client × List Chunk :=
  ({ c with response := { c.response with sent := true } },
    [Chunk.flushResponse c.requested.version c.response.code c.response.message])

/-- Model of `Client::send_response_if_not_already_sent`
(`src/src/client.rs` lines 158-164). -/
def sendResponseIfNotAlreadySent (c : Client) : Client × List Chunk :=
  if c.response.sent then (c, []) else writeResponse c

/-- One operation on a `Client`: the next state, the chunks written to the
stream, and the error, if any, the operation returns
(`src/src/client.rs` lines 65-107 and 263-277). -/
def step (c : Client) (op : Op) : Client × List Chunk × Option ClientError :=
  match op with
  | Op.setResponse code message =>
      if c.response.sent then (c, [], some ClientError.responseAlreadySent)
      else if containsControlChar message then (c, [], some ClientError.controlCharInMessage)
      else ({ c with response := { c.response with code := code, message := message } }, [], none)
  | Op.sendResponse =>
      if c.response.sent then (c, [], some ClientError.responseAlreadySent)
      else ((writeResponse c).1, (writeResponse c).2, none)
  | Op.write bytes =>
      ((sendResponseIfNotAlreadySent c).1,
        (sendResponseIfNotAlreadySent c).2 ++ [Chunk.body bytes], none)
  | Op.writeAll bytes =>
      ((sendResponseIfNotAlreadySent c).1,
        (sendResponseIfNotAlreadySent c).2 ++ [Chunk.body bytes], none)
  | Op.writeOverriding bytes =>
      ({ c with response := { c.response with sent := true } }, [Chunk.raw bytes], none)

/-- A sequence of operations on a `Client`: final state and concatenated
output.  Failed operations leave the state unchanged and the handler may
continue, exactly as in the Rust API. -/
def opTrace : Client → List Op → Client × List Chunk
  | c, [] => (c, [])
  | c, op :: ops =>
      ((opTrace (step c op).1 ops).1, (step c op).2.1 ++ (opTrace (step c op).1 ops).2)

/-- The literal bytes `handle` writes on an unrecovered handler failure with
nothing sent (`src/src/lib.rs` line 210).  The byte-string literal in the
source contains a textual placeholder — an opening and closing brace —
where the HTTP minor version digit was evidently meant to go; the bytes
are reproduced verbatim. -/
def internalErrorResponse : List Nat :=
  strBytes "HTTP/1.\x7b\x7d 500 Internal Server Error\r\nConnection: close\r\n\r\nerr: internal\r\n"

/-- What `handle` (`src/src/lib.rs` lines 205-215) writes after the handler
call returns: nothing when a response was already sent; the raw 500 literal
when the call failed; otherwise the normal `send_response` flush. -/
def handleEpilogue (c : Client) (handlerFailed : Bool) : List Chunk :=
  if c.response.sent then []
  else if handlerFailed then [Chunk.raw internalErrorResponse]
  else (step c Op.sendResponse).2.1

/-- What the default `HttpRequestHandler::handle` dispatch does with a
method string; `callPost` exists so the specified `POST` behaviour can be
stated, the embedded dispatch below never produces it. -/
inductive DispatchAction
  | callGet
  | callHead
  | callPost
  | respondNotAllowed
deriving DecidableEq, Repr

/-- Model of the default `HttpRequestHandler::handle`
(`src/src/lib.rs` lines 31-40): `GET` and `HEAD` go to their hooks and
every other method falls to the catch-all `405` arm. -/
def handleDispatch (method : String) : DispatchAction :=
  match method with
  | "GET" => DispatchAction.callGet
  | "HEAD" => DispatchAction.callHead
  | _ => DispatchAction.respondNotAllowed

/-- Default `do_get` (`src/src/lib.rs` lines 42-44):
`set_response(405, "Method Not Allowed")`. -/
def doGetDefault (c : Client) : Client × List Chunk × Option ClientError :=
  step c (Op.setResponse 405 "Method Not Allowed")

/-- Default `do_head` (`src/src/lib.rs` lines 45-47). -/
def doHeadDefault (c : Client) : Client × List Chunk × Option ClientError :=
  step c (Op.setResponse 405 "Method Not Allowed")

/-- Steps `serve` (`src/src/lib.rs` lines 164-177) performs for one
accepted connection, in program order: accept, build the handler, spawn the
worker thread, and — inside the worker — run `handle` under
`catch_unwind`. -/
inductive SupervisorEvent
  | acceptConn
  | acquirePermit
  | releasePermit
  | constructHandler
  | spawnWorker
  | runWorker
deriving DecidableEq, Repr

/-- Transcription of the per-connection path of `serve`
(`src/src/lib.rs` lines 164-177): `listen.accept()?`, `handler(&addr)`,
`thread::spawn`, and the spawned closure running `catch_unwind(handle)`.
No other statement occurs on this path. -/
def serveConnectionEvents : List SupervisorEvent :=
  [SupervisorEvent.acceptConn, SupervisorEvent.constructHandler,
    SupervisorEvent.spawnWorker, SupervisorEvent.runWorker]

/-- The counting semaphore of `src/src/semaphore.rs`, by permit count. -/
structure Semaphore where
  permits : Nat
deriving DecidableEq, Repr

/-- Constructor `Semaphore::new`. -/
def Semaphore.new (count : Nat) : Semaphore :=
  { permits := count }

/-- Model of `Semaphore::acquire` (`src/src/semaphore.rs` lines 22-28):
blocks — here `none` — while no permit is available, otherwise takes one. -/
def Semaphore.tryAcquire (s : Semaphore) : Option Semaphore :=
  if s.permits = 0 then none else some { permits := s.permits - 1 }

/-- Model of `Semaphore::release` (`src/src/semaphore.rs` lines 31-34). -/
def Semaphore.release (s : Semaphore) : Semaphore :=
  { permits := s.permits + 1 }

/-- A fresh parsed `GET /` request with no headers and no pre-read bytes. -/
def demoRequested : Requested :=
  { method := "GET", path := "/", version := 1, headers := [], bodyStart := [] }

/-- A freshly constructed client for the demo request. -/
def demoFreshClient : Client :=
  Client.new demoRequested "127.0.0.1:40000" []

/-- A client with exactly one pending pre-read body byte. -/
def demoPendingClient : Client :=
  Client.new
    { method := "POST", path := "/", version := 1,
      headers := [("Content-Length", "1")], bodyStart := [7] }
    "127.0.0.1:40001" []

/-- A client whose request declares `Content-Length: 3` while the
connection offers six body bytes (two of them pre-read). -/
def demoBodyClient : Client :=
  Client.new
    { method := "POST", path := "/save", version := 1,
      headers := [("Content-Length", "3")], bodyStart := [100, 101] }
    "127.0.0.1:40002" [102, 103, 104, 105]

/-- Wire bytes of the demo request `GET / HTTP/1.0` with one header and two
body bytes (`XY`) already readable. -/
def demoRequest : List Nat :=
  strBytes "GET / HTTP/1.0\r\nHost: a\r\n\r\nXY"

/-- The header block of `demoRequest`, up to and including the blank
line. -/
def demoHeaderBlock : List Nat :=
  strBytes "GET / HTTP/1.0\r\nHost: a\r\n\r\n"

/-- The bytes of `demoRequest` past the header terminator. -/
def demoBodyStart : List Nat :=
  strBytes "XY"

/-- Splitting at the first LF loses and reorders nothing. -/
theorem readUntilLF_append (l : List Nat) :
    (readUntilLF l).1 ++ (readUntilLF l).2 = l := by
  induction l with
  | nil => simp [readUntilLF]
  | cons b rest ih =>
      by_cases hb : b = 10
      · simp [readUntilLF, hb]
      · simp [readUntilLF, hb, ih]

/-- Any successful run of the header loop returns a block that extends the
accumulator by exactly the consumed bytes and ends in a terminator. -/
theorem readHeadersLoop_ok (fuel : Nat) :
    ∀ (ret : List Nat) (lines : Nat) (rem h b : List Nat) (n : Nat),
      readHeadersLoop fuel ret lines rem = ReadResult.ok h b n →
      h ++ b = ret ++ rem
      ∧ (listEndsWith h [10, 13, 10] = true ∨ listEndsWith h [10, 10] = true) := by
  induction fuel with
  | zero => intro ret lines rem h b n hok; simp [readHeadersLoop] at hok
  | succ fuel ih =>
      intro ret lines rem h b n hok
      rw [readHeadersLoop] at hok
      by_cases h1 : listEndsWith (ret ++ (readUntilLF rem).1) [10] = false
      · simp [h1] at hok
      · rw [if_neg (by simp [h1])] at hok
        by_cases h2 : (listEndsWith (ret ++ (readUntilLF rem).1) [10, 13, 10]
            || listEndsWith (ret ++ (readUntilLF rem).1) [10, 10]) = true
        · rw [if_pos h2] at hok
          obtain ⟨hh, hb, -⟩ := ReadResult.ok.inj hok
          subst hh; subst hb
          refine ⟨?_, by simpa using h2⟩
          rw [List.append_assoc, readUntilLF_append]
        · rw [if_neg h2] at hok
          obtain ⟨he, -⟩ := ih _ _ _ _ _ _ hok
          refine ⟨?_, (ih _ _ _ _ _ _ hok).2⟩
          rw [he, List.append_assoc, readUntilLF_append]

/-- Reading one byte from a client never panics and peels the first pending
or live byte; draining through the `Take` limit therefore yields exactly the
first `limit` bytes of pending-then-live data, in order. -/
theorem drainTake_eq (limit : Nat) : ∀ (c : Client),
    drainTake limit c = (c.requested.bodyStart ++ c.stream).take limit := by
  induction limit with
  | zero => intro c; simp [drainTake]
  | succ k ih =>
      intro c
      cases hb : c.requested.bodyStart with
      | nil =>
          cases hs : c.stream with
          | nil => simp [drainTake, clientRead, hb, hs]
          | cons s ss =>
              have : clientRead c 1 = some ([s], { c with stream := ss }) := by
                simp [clientRead, hb, hs]
              rw [drainTake, this]
              simp [hb, hs, ih]
      | cons x xs =>
          have : clientRead c 1
              = some ([x], { c with requested := { c.requested with bodyStart := xs } }) := by
            simp [clientRead, hb]
          rw [drainTake, this]
          simp [hb, ih]

/-- C4: for every well-formed request, the header block `read_headers`
returns ends with a blank line (the `\n\r\n` or `\n\n` terminator is its
suffix, so no byte lies past it), the block and the pre-read body bytes
partition the consumed input with nothing dropped or reordered, and the
pre-read bytes come back, in order, as the first bytes any client built on
them yields, ahead of everything the live stream offers. -/
theorem read_headers_spec (src h b : List Nat) (n : Nat)
    (hok : readHeaders src = ReadResult.ok h b n) :
    h ++ b = src
    ∧ (listEndsWith h [10, 13, 10] = true ∨ listEndsWith h [10, 10] = true)
    ∧ ∀ (requested : Requested) (addr : String) (s : List Nat),
        drainTake (b.length + s.length)
          (Client.new { requested with bodyStart := b } addr s) = b ++ s := by
  obtain ⟨he, ht⟩ := readHeadersLoop_ok (src.length + 1) [] 0 src h b n hok
  refine ⟨by simpa using he, ht, ?_⟩
  intro requested addr s
  rw [drainTake_eq]
  show (b ++ s).take (b.length + s.length) = b ++ s
  rw [List.take_of_length_le (by simp)]

/-- C4 witness: the demo request `GET / HTTP/1.0` with a `Host` header and
two pre-read body bytes satisfies the hypothesis and the conclusion. -/
theorem read_headers_spec_witness :
    readHeaders demoRequest = ReadResult.ok demoHeaderBlock demoBodyStart 3
    ∧ (demoHeaderBlock ++ demoBodyStart = demoRequest
        ∧ (listEndsWith demoHeaderBlock [10, 13, 10] = true
            ∨ listEndsWith demoHeaderBlock [10, 10] = true)
        ∧ ∀ (requested : Requested) (addr : String) (s : List Nat),
            drainTake (demoBodyStart.length + s.length)
              (Client.new { requested with bodyStart := demoBodyStart } addr s)
              = demoBodyStart ++ s) :=
  ⟨by decide, read_headers_spec demoRequest demoHeaderBlock demoBodyStart 3 (by decide)⟩

/-- C6: contrary to the claim that `read_headers` returns a Parse error
when the source ends before a header terminator, the code panics (its own
`assert!(ret.ends_with(b"\n"))` fails) when the source ends without a final
LF, and loops forever (every further `read_until` reads zero bytes and the
accumulated block never gains a terminator) when the source ends in an LF;
the empty source panics too. -/
theorem read_headers_eof_no_parse_error :
    readHeaders [97, 98, 99] = ReadResult.panicked
    ∧ readHeaders [97, 10] = ReadResult.diverged
    ∧ readHeaders [] = ReadResult.panicked := by
  decide

/-- C5: contrary to the claim that `Client::read` never panics when the
buffer is longer than the pending pre-read bytes, a two-byte read against a
single pending byte panics — `buf.copy_from_slice(&body_start[..to_reply])`
is applied to the whole buffer with a shorter source slice (modelled as
`none`).  A read that does fit (one byte) and the zero-length read behave
as claimed. -/
theorem client_read_large_buffer_panics :
    clientRead demoPendingClient 2 = none
    ∧ (clientRead demoPendingClient 1).map (fun p => p.1) = some [7]
    ∧ (clientRead demoPendingClient 1).map (fun p => p.2.requested.bodyStart) = some []
    ∧ clientRead demoPendingClient 0 = some ([], demoPendingClient) := by
  decide

/-- C3: contrary to the claim that the synthesized 500 response begins with
a well-formed status line carrying an actual HTTP minor version digit, the
epilogue of `handle` writes the byte-string literal of `src/src/lib.rs`
line 210 verbatim: at the version position (offset 7) it carries the two
placeholder bytes 123 and 125 — an opening and a closing brace — and not a
digit 48 or 49. -/
theorem internal_error_literal_placeholder :
    handleEpilogue demoFreshClient true = [Chunk.raw internalErrorResponse]
    ∧ internalErrorResponse.take 9 = strBytes "HTTP/1.\x7b\x7d"
    ∧ internalErrorResponse.get? 7 = some 123
    ∧ internalErrorResponse.get? 8 = some 125
    ∧ internalErrorResponse.get? 7 ≠ some 48
    ∧ internalErrorResponse.get? 7 ≠ some 49
    ∧ internalErrorResponse.drop 9
        = strBytes " 500 Internal Server Error\r\nConnection: close\r\n\r\nerr: internal\r\n" := by
  decide

/-- C2: contrary to the claim that the default dispatch sends `POST` to a
`do_post` hook, the `match` in the default `HttpRequestHandler::handle` has
no `POST` arm (and the trait declares no `do_post`), so the method falls
into the catch-all `405 Method Not Allowed` arm; `GET` and `HEAD` reach
their hooks, and each default hook itself answers `405`. -/
theorem dispatch_post_hits_catch_all :
    handleDispatch "POST" = DispatchAction.respondNotAllowed
    ∧ handleDispatch "PUT" = DispatchAction.respondNotAllowed
    ∧ handleDispatch "GET" = DispatchAction.callGet
    ∧ handleDispatch "HEAD" = DispatchAction.callHead
    ∧ (doGetDefault demoFreshClient).1.response.code = 405
    ∧ (doGetDefault demoFreshClient).1.response.message = "Method Not Allowed"
    ∧ (doHeadDefault demoFreshClient).1.response.code = 405 := by
  decide

/-- C1 counterexample: the per-connection path of `serve` contains no
acquisition of an AdmissionGate permit at all, refuting the claim that a
permit is acquired before the worker is spawned. -/
theorem serve_acquires_no_permit :
    SupervisorEvent.acquirePermit ∉ serveConnectionEvents := by
  decide

/-- C1 as amended: `serve` accepts a connection, constructs the handler and
spawns the worker that runs `handle` under `catch_unwind`, without acquiring
or releasing any `Semaphore` permit on any path, so the engine itself does
not bound the number of concurrently-handled connections. -/
theorem serve_spawns_without_admission :
    serveConnectionEvents
      = [SupervisorEvent.acceptConn, SupervisorEvent.constructHandler,
          SupervisorEvent.spawnWorker, SupervisorEvent.runWorker]
    ∧ SupervisorEvent.acquirePermit ∉ serveConnectionEvents
    ∧ SupervisorEvent.releasePermit ∉ serveConnectionEvents := by
  decide

/-- Once `sent` is set, every operation keeps it set and emits no flush:
`write_response` is only reached through guards on `sent`. -/
theorem step_sent_true (c : Client) (op : Op) (h : c.response.sent = true) :
    (step c op).1.response.sent = true
    ∧ ((step c op).2.1.all fun ch => !ch.isFlush) = true := by
  cases op <;>
    simp [step, sendResponseIfNotAlreadySent, writeResponse, h, Chunk.isFlush]

/-- Along any operation sequence from a client whose response is sent, the
flag stays set and the whole output is flush-free. -/
theorem opTrace_sent_true (c : Client) (ops : List Op) (h : c.response.sent = true) :
    (opTrace c ops).1.response.sent = true
    ∧ ((opTrace c ops).2.all fun ch => !ch.isFlush) = true := by
  induction ops generalizing c with
  | nil => simpa [opTrace] using h
  | cons op ops ih =>
      obtain ⟨h1, h2⟩ := step_sent_true c op h
      obtain ⟨h3, h4⟩ := ih _ h1
      exact ⟨by simpa [opTrace] using h3, by simp [opTrace, List.all_append, h2, h4]⟩

/-- From an unsent client one operation either emits nothing and leaves the
flag clear, or emits a first chunk followed only by non-flush chunks and
sets the flag. -/
theorem step_sent_false (c : Client) (op : Op) (h : c.response.sent = false) :
    ((step c op).2.1 = [] ∧ (step c op).1.response.sent = false)
    ∨ ∃ ch rest, (step c op).2.1 = ch :: rest
        ∧ (rest.all fun x => !x.isFlush) = true
        ∧ (step c op).1.response.sent = true := by
  cases op with
  | setResponse code message =>
      by_cases hm : containsControlChar message
      · exact Or.inl (by simp [step, h, hm])
      · exact Or.inl (by simp [step, h, hm])
  | sendResponse =>
      exact Or.inr ⟨Chunk.flushResponse c.requested.version c.response.code c.response.message,
        [], by simp [step, h, writeResponse], by simp,
        by simp [step, h, writeResponse]⟩
  | write bytes =>
      exact Or.inr ⟨Chunk.flushResponse c.requested.version c.response.code c.response.message,
        [Chunk.body bytes],
        by simp [step, h, sendResponseIfNotAlreadySent, writeResponse],
        by simp [Chunk.isFlush],
        by simp [step, h, sendResponseIfNotAlreadySent, writeResponse]⟩
  | writeAll bytes =>
      exact Or.inr ⟨Chunk.flushResponse c.requested.version c.response.code c.response.message,
        [Chunk.body bytes],
        by simp [step, h, sendResponseIfNotAlreadySent, writeResponse],
        by simp [Chunk.isFlush],
        by simp [step, h, sendResponseIfNotAlreadySent, writeResponse]⟩
  | writeOverriding bytes =>
      exact Or.inr ⟨Chunk.raw bytes, [], by simp [step], by simp, by simp [step]⟩

/-- From an unsent client, everything after the first output chunk is
flush-free: the single possible flush can only be the very first thing
written on the connection. -/
theorem opTrace_flush_first (c : Client) (ops : List Op) (h : c.response.sent = false) :
    ((((opTrace c ops).2).drop 1).all fun ch => !ch.isFlush) = true := by
  induction ops generalizing c with
  | nil => simp [opTrace]
  | cons op ops ih =>
      rcases step_sent_false c op h with ⟨h1, h2⟩ | ⟨ch, rest, h1, h2, h3⟩
      · simpa [opTrace, h1] using ih _ h2
      · have h4 := (opTrace_sent_true (step c op).1 ops h3).2
        simp [opTrace, h1, List.all_append, h2, h4]

/-- C8: the `sent` flag is monotone — no operation ever clears it — and on
any client built by the engine (`Response::default()`, so `sent` starts
false) every status-line + `Connection: close` flush sits at output index
zero: it happens at most once per connection and strictly before any body
byte written through the `Write` operations. -/
theorem response_flush_once_before_body :
    (∀ (c : Client) (ops : List Op),
        c.response.sent ≤ (opTrace c ops).1.response.sent)
    ∧ ∀ (requested : Requested) (addr : String) (stream : List Nat) (ops : List Op),
        ((((opTrace (Client.new requested addr stream) ops).2).drop 1).all
            fun ch => !ch.isFlush) = true := by
  constructor
  · intro c ops
    cases hc : c.response.sent
    · exact Bool.false_le _
    · simp [(opTrace_sent_true c ops hc).1]
  · intro requested addr stream ops
    exact opTrace_flush_first _ ops rfl

/-- C9: `set_response` fails exactly when the response was already sent or
the new message contains an ASCII control character; on failure the pending
status and message are untouched, on success they are replaced (and the
`sent` flag is untouched); after the response is sent it always fails with
the state error `response already sent`, never silently succeeding. -/
theorem set_response_state_guard (c : Client) (code : Nat) (msg : String) :
    ((step c (Op.setResponse code msg)).2.2.isSome = true
        ↔ (c.response.sent = true ∨ containsControlChar msg = true))
    ∧ (step c (Op.setResponse code msg)).1
        = (if c.response.sent = true ∨ containsControlChar msg = true then c
            else { c with response := { c.response with code := code, message := msg } })
    ∧ (step { c with response := { c.response with sent := true } }
          (Op.setResponse code msg)).2.2 = some ClientError.responseAlreadySent := by
  by_cases h1 : c.response.sent <;> by_cases h2 : containsControlChar msg <;>
    simp [step, h1, h2]

/-- C10: `write_all_overriding_headers` emits exactly the raw bytes while
setting `sent` (in the source the flag is assigned before the write, so it
is set even if the write fails); afterwards `response_sent()` is true, both
`set_response` and `send_response` fail with `response already sent`, the
`handle` epilogue emits nothing, and no later operation sequence ever emits
a status-line flush on the connection. -/
theorem write_overriding_marks_sent (c : Client) (l : List Nat) (code : Nat)
    (msg : String) (failed : Bool) (ops : List Op) :
    step c (Op.writeOverriding l)
      = ({ c with response := { c.response with sent := true } }, [Chunk.raw l], none)
    ∧ responseSent (step c (Op.writeOverriding l)).1 = true
    ∧ (step (step c (Op.writeOverriding l)).1 (Op.setResponse code msg)).2.2
        = some ClientError.responseAlreadySent
    ∧ (step (step c (Op.writeOverriding l)).1 Op.sendResponse).2.2
        = some ClientError.responseAlreadySent
    ∧ handleEpilogue (step c (Op.writeOverriding l)).1 failed = []
    ∧ ((opTrace (step c (Op.writeOverriding l)).1 ops).2.all fun ch => !ch.isFlush) = true := by
  refine ⟨rfl, rfl, by simp [step], by simp [step], by simp [handleEpilogue, step], ?_⟩
  exact (opTrace_sent_true _ ops (by simp [step])).2

/-- C7: `body_reader` fails exactly when the `Content-Length` header is
absent or its value does not parse as a non-negative (64-bit) integer; on
success it wraps the client in a `Take` of exactly that many bytes, so
draining the body yields exactly `Content-Length` bytes whenever the
connection offers at least that many, no matter how many more it offers. -/
theorem body_reader_spec (c : Client) :
    ((∃ e, bodyReaderLen c = Except.error e)
        ↔ (requestHeader c "Content-Length" = none
            ∨ ∃ v, requestHeader c "Content-Length" = some v ∧ parseUsize v = none))
    ∧ ∀ len, bodyReaderLen c = Except.ok len →
        len ≤ c.requested.bodyStart.length + c.stream.length →
        drainTake len c = (c.requested.bodyStart ++ c.stream).take len
        ∧ (drainTake len c).length = len := by
  constructor
  · cases hh : requestHeader c "Content-Length" with
    | none => simp [bodyReaderLen, contentLength, hh]
    | some v =>
        cases hp : parseUsize v with
        | none => simp [bodyReaderLen, contentLength, hh, hp]
        | some n => simp [bodyReaderLen, contentLength, hh, hp]
  · intro len hok hle
    refine ⟨drainTake_eq len c, ?_⟩
    rw [drainTake_eq len c, List.length_take, List.length_append]
    exact Nat.min_eq_left hle

/-- C7 witness: a client declaring `Content-Length: 3` over six offered
body bytes gets a body reader of exactly three bytes. -/
theorem body_reader_spec_witness :
    bodyReaderLen demoBodyClient = Except.ok 3
    ∧ drainTake 3 demoBodyClient
        = (demoBodyClient.requested.bodyStart ++ demoBodyClient.stream).take 3
    ∧ (drainTake 3 demoBodyClient).length = 3 :=
  ⟨by rfl, ((body_reader_spec demoBodyClient).2 3 (by rfl) (by decide)).1,
    ((body_reader_spec demoBodyClient).2 3 (by rfl) (by decide)).2⟩
